import Mathlib

/-!
Verification of the FI-dashboard time-series synchronization engine
(`src/updater.py`, `src/app.py`) against its natural-language specification.

The Python code is shallowly embedded: pandas frames become association
lists from date keys to rows of optional rational cells (`none` models a
NaN / empty sheet cell), the period-label parser `_tp_to_timestamp`
becomes a total Lean function whose `raised` constructor models an
uncaught Python exception, and the behaviour of the pandas library calls
the code relies on (`Timestamp`, `to_datetime`, `combine_first`,
`pct_change`, `resample`) is reproduced for the value shapes the
repository's providers emit.
-/

namespace FIDash

/-! ## Calendar basics -/

/-- A calendar date, as carried by a `pd.Timestamp` at day resolution. -/
structure Date where
  year : Nat
  month : Nat
  day : Nat
deriving DecidableEq, Repr

/-- Gregorian leap-year test. -/
def isLeap (y : Nat) : Bool :=
  (y % 4 == 0 && y % 100 != 0) || (y % 400 == 0)

/-- Number of days of month `m` of year `y` (months outside 1..12 fall to
the default 31; such dates are rejected by `validTs` below). -/
def daysInMonth (y m : Nat) : Nat :=
  if m = 2 then (if isLeap y then 29 else 28)
  else if m = 4 ∨ m = 6 ∨ m = 9 ∨ m = 11 then 30
  else 31

/-- Last calendar day of month `m` of year `y`, as produced by
`pd.offsets.MonthEnd(0)` applied to the first of the month and by
`resample("M")` bucket labels. -/
def monthEnd (y m : Nat) : Date := ⟨y, m, daysInMonth y m⟩

/-- The day after `d` (`+ pd.Timedelta(days=1)` on a day-resolution stamp). -/
def nextDay (d : Date) : Date :=
  if d.day < daysInMonth d.year d.month then ⟨d.year, d.month, d.day + 1⟩
  else if d.month < 12 then ⟨d.year, d.month + 1, 1⟩
  else ⟨d.year + 1, 1, 1⟩

/-- Numeric key `yyyymmdd` of a date; for valid dates this ordering agrees
with calendar ordering, and the sheets store rows sorted by it. -/
def Date.key (d : Date) : Nat := d.year * 10000 + d.month * 100 + d.day

theorem daysInMonth_bounds (y m : Nat) :
    28 ≤ daysInMonth y m ∧ daysInMonth y m ≤ 31 := by
  unfold daysInMonth
  split_ifs <;> omega

/-! ## Model of the pandas timestamp constructors

`pd.Timestamp(year, month, day)` (the integer form used by
`_tp_to_timestamp`) raises `ValueError`/`OutOfBoundsDatetime` unless the
components form a real calendar date inside the nanosecond-representable
range (years 1677..2262; we use the safe interior 1678..2261, which every
label in this development inhabits). -/

/-- Component validity for the `pd.Timestamp` integer constructor. -/
def validTs (y m d : Nat) : Bool :=
  1678 ≤ y && y ≤ 2261 && 1 ≤ m && m ≤ 12 && 1 ≤ d && d ≤ daysInMonth y m

/-- Result of `_tp_to_timestamp`: a timestamp, `NaT` (which the callers
test with `pd.isna` and drop), or an uncaught Python exception. -/
inductive TpResult where
  | ts (d : Date)
  | nat
  | raised
deriving DecidableEq, Repr

/-- `pd.Timestamp(y, m, d)` with exception modelled as `raised`. -/
def mkTs (y m d : Nat) : TpResult :=
  if validTs y m d then .ts ⟨y, m, d⟩ else .raised

/-- `pd.Timestamp(y, m, 1) + pd.offsets.MonthEnd(0)`: the first of a valid
month rolled forward to the month's end. -/
def mkTsMonthEnd (y m : Nat) : TpResult :=
  if validTs y m 1 then .ts (monthEnd y m) else .raised

/-! ## String helpers for the label parser

Labels are handled as lists of characters (`String.toList`), with the
Python string operations the parser uses re-implemented structurally. -/

/-- Python `str.strip()`: remove leading and trailing whitespace. -/
def trimChars (cs : List Char) : List Char :=
  ((cs.dropWhile Char.isWhitespace).reverse.dropWhile Char.isWhitespace).reverse

/-- Python `str.isdigit` on ASCII content (empty string is `False`). -/
def allDigits (cs : List Char) : Bool :=
  !cs.isEmpty && cs.all Char.isDigit

/-- Python `int(s)` on the digit strings the parser feeds it: `some` of the
decimal value on a nonempty digit string, `none` (a raised `ValueError`)
otherwise. -/
def digitsToNat (cs : List Char) : Option Nat :=
  if allDigits cs then
    some (cs.foldl (fun n c => n * 10 + (c.toNat - '0'.toNat)) 0)
  else none

/-- Python `s.split("-Q")`: split on every occurrence of the two-character
separator `-Q`, scanning left to right. -/
def splitOnDashQ : List Char → List (List Char)
  | [] => [[]]
  | '-' :: 'Q' :: rest => [] :: splitOnDashQ rest
  | c :: rest =>
    match splitOnDashQ rest with
    | h :: t => (c :: h) :: t
    | [] => [[c]]

/-- Model of `pd.to_datetime(label, errors="coerce")`, the parser of last
resort in `_tp_to_timestamp`, restricted to the label shapes that can
actually reach it there (everything digit-shaped of length 6/8 and every
length-7 shape with a dash at index 4 is consumed by earlier branches):
plain ISO dates `YYYY-MM-DD`, bare years `YYYY`, and compact quarters
`YYYYQn` (which pandas' abbreviation parser maps to the FIRST day of the
quarter). `errors="coerce"` turns every parse failure into `NaT`
(`none`). -/
def pd_to_datetime_coerce (cs : List Char) : Option Date :=
  if cs.length = 10 ∧ cs.get? 4 = some '-' ∧ cs.get? 7 = some '-' then
    match digitsToNat (cs.take 4), digitsToNat ((cs.drop 5).take 2),
        digitsToNat (cs.drop 8) with
    | some y, some m, some d => if validTs y m d then some ⟨y, m, d⟩ else none
    | _, _, _ => none
  else if cs.length = 4 ∧ allDigits cs then
    match digitsToNat cs with
    | some y => if validTs y 1 1 then some ⟨y, 1, 1⟩ else none
    | none => none
  else if cs.length = 6 ∧ cs.get? 4 = some 'Q' ∧ allDigits (cs.take 4) then
    match digitsToNat (cs.take 4), digitsToNat (cs.drop 5) with
    | some y, some q =>
        if 1 ≤ q ∧ q ≤ 4 ∧ validTs y ((q - 1) * 3 + 1) 1 then
          some ⟨y, (q - 1) * 3 + 1, 1⟩
        else none
    | _, _ => none
  else none

/-! ## The Period Normalizer: `_tp_to_timestamp` (updater.py 192-217)

Branches in source order:
1. length 6, all digits (ECOS monthly `YYYYMM`): `pd.Timestamp(y, m, 1)`;
2. length 8, all digits (ECOS daily `YYYYMMDD`): `pd.Timestamp(y, m, d)`;
3. length 7 with `tp[4] == '-'` (monthly `YYYY-MM`):
   `pd.Timestamp(tp + "-01")` — parses only if both sides of the dash are
   digits forming a valid year-month, otherwise the string constructor
   raises (in particular `"2024-Q1"` lands here and raises, because
   `"2024-Q1-01"` matches no pandas or dateutil format);
4. `"-Q"` in the label: `tp.split("-Q")` must yield exactly two integer
   parts, then `pd.Timestamp(y, 3 q, 1) + MonthEnd(0)`;
5. otherwise `pd.to_datetime(tp, errors="coerce")`. -/
def tp_to_timestamp (tp0 : String) : TpResult :=
  let tp := trimChars tp0.toList
  if tp.length = 6 ∧ allDigits tp then
    match digitsToNat (tp.take 4), digitsToNat (tp.drop 4) with
    | some y, some m => mkTs y m 1
    | _, _ => .raised
  else if tp.length = 8 ∧ allDigits tp then
    match digitsToNat (tp.take 4), digitsToNat ((tp.drop 4).take 2),
        digitsToNat (tp.drop 6) with
    | some y, some m, some d => mkTs y m d
    | _, _, _ => .raised
  else if tp.length = 7 ∧ tp.get? 4 = some '-' then
    if allDigits (tp.take 4) ∧ allDigits (tp.drop 5) then
      match digitsToNat (tp.take 4), digitsToNat (tp.drop 5) with
      | some y, some m => mkTs y m 1
      | _, _ => .raised
    else .raised
  else if 2 ≤ (splitOnDashQ tp).length then
    match splitOnDashQ tp with
    | [ys, qs] =>
        match digitsToNat ys, digitsToNat qs with
        | some y, some q => mkTsMonthEnd y (q * 3)
        | _, _ => .raised
    | _ => .raised
  else
    match pd_to_datetime_coerce tp with
    | some d => .ts d
    | none => .nat

/-! ## Data frames

A pandas DataFrame with a `Date` index is embedded as a list of
(date key, row) pairs; a row maps column names to cells. A cell is
`Option ℚ`: `none` models both NaN and the empty-string marker the sheets
use for missing values (update_daily replaces `""` by NA before merging,
updater.py 549-551, and turns NA back into `""` before writing). -/

/-- A sheet / DataFrame cell. -/
abbrev Cell := Option ℚ

/-- A DataFrame with a date index. -/
structure DF where
  rows : List (Nat × List (String × Cell))
deriving DecidableEq, Repr

/-- The date index. -/
def DF.dates (df : DF) : List Nat := df.rows.map Prod.fst

/-- The row at date `d`, if present. -/
def DF.getRow (df : DF) (d : Nat) : Option (List (String × Cell)) :=
  (df.rows.find? (fun r => r.1 == d)).map Prod.snd

/-- Value of a row at column `c` (`none` when the column is absent or the
cell is empty). -/
def rowGet (r : List (String × Cell)) (c : String) : Cell :=
  ((r.find? (fun p => p.1 == c)).map Prod.snd).join

/-- Cell of the frame at date `d`, column `c`. -/
def DF.get (df : DF) (d : Nat) (c : String) : Cell :=
  ((df.getRow d).map (fun r => rowGet r c)).join

/-- `combine_first` aligns the two frames on the union of their date
indexes, sorted ascending. -/
def dateUnion (a b : List Nat) : List Nat :=
  ((a ++ b).dedup).insertionSort (· ≤ ·)

/-- The merged row of update_daily at date `d`: per column of the target
header, the existing cell when present and non-empty, otherwise the
freshly pulled one — `df_existing_clean.combine_first(df_pulled)`
reindexed to the header columns (updater.py 553-559). -/
def mergedRow (ex pl : DF) (cols : List String) (d : Nat) : List (String × Cell) :=
  cols.map (fun c => (c, (ex.get d c).orElse (fun _ => pl.get d c)))

/-- The merge step of update_daily (updater.py 549-559): existing sheet
data merged with the freshly pulled lookback window, on the union of the
two date indexes. -/
def updateDailyMerge (ex pl : DF) (cols : List String) : DF :=
  ⟨(dateUnion ex.dates pl.dates).map (fun d => (d, mergedRow ex pl cols d))⟩

/-- The watermark of a table: the date of its last row (the sheets keep
rows sorted ascending, and `get_header_and_last_date` reads
`values[-1][0]`, updater.py 150-162). -/
def DF.watermark (df : DF) : Option Nat := df.dates.getLast?

/-! ### Key-lookup lemmas -/

theorem find_map_pair {α β : Type} [BEq α] [LawfulBEq α] (l : List α) (g : α → β) (a : α)
    (h : a ∈ l) :
    (l.map (fun x => (x, g x))).find? (fun p => p.1 == a) = some (a, g a) := by
  induction l with
  | nil => simp at h
  | cons x xs ih =>
    by_cases hx : x = a
    · subst hx
      simp
    · have hmem : a ∈ xs := by
        rcases List.mem_cons.mp h with h' | h'
        · exact absurd h'.symm hx
        · exact h'
      rw [List.map_cons, List.find?_cons_of_neg _ (by simpa using hx), ih hmem]

theorem mem_dateUnion_iff {a b : List Nat} {d : Nat} :
    d ∈ dateUnion a b ↔ d ∈ a ∨ d ∈ b := by
  unfold dateUnion
  rw [(List.perm_insertionSort _ _).mem_iff, List.mem_dedup, List.mem_append]

theorem mem_dates_of_get (df : DF) (d : Nat) (c : String) (h : df.get d c ≠ none) :
    d ∈ df.dates := by
  unfold DF.get DF.getRow at h
  cases hf : df.rows.find? (fun r => r.1 == d) with
  | none => rw [hf] at h; simp at h
  | some r =>
    have hr : r ∈ df.rows := List.mem_of_find?_eq_some hf
    have hp : r.1 = d := by simpa using List.find?_some hf
    exact hp ▸ List.mem_map_of_mem Prod.fst hr

/-- Per-cell characterisation of the update_daily merge, on any date of the
combined index and any column of the target header. -/
theorem get_updateDailyMerge (ex pl : DF) (cols : List String) (d : Nat) (c : String)
    (hd : d ∈ dateUnion ex.dates pl.dates) (hc : c ∈ cols) :
    (updateDailyMerge ex pl cols).get d c =
      (ex.get d c).orElse (fun _ => pl.get d c) := by
  unfold updateDailyMerge DF.get DF.getRow
  rw [find_map_pair _ _ _ hd]
  show rowGet (mergedRow ex pl cols d) c = _
  unfold rowGet mergedRow
  rw [find_map_pair _ _ _ hc]
  rfl

/-! ### The monthly append path -/

/-- The finalize step of update_monthly_rates (updater.py 795-816): the
fetched frame is sorted by date, restricted to dates at least one day
after the stored last date (`combined[combined.index >= last + 1 day]`),
and the surviving rows are appended below the existing rows
(`append_rows`); existing rows are not rewritten. -/
def monthlyFinalize (existing : List (Nat × List (String × Cell))) (lastDate : Option Date)
    (combined : DF) : List (Nat × List (String × Cell)) :=
  let sorted : List (Nat × List (String × Cell)) :=
    combined.rows.insertionSort (fun r s => r.1 ≤ s.1)
  let filtered := match lastDate with
    | some ld => sorted.filter (fun r => (nextDay ld).key ≤ r.1)
    | none => sorted
  existing ++ filtered

/-! ### Sorted-list watermark lemmas -/

theorem le_getLast_of_sorted {l : List Nat} (hs : l.Sorted (· ≤ ·)) (h : l ≠ []) :
    ∀ x ∈ l, x ≤ l.getLast h := by
  induction l with
  | nil => simp at h
  | cons a t ih =>
    intro x hx
    cases t with
    | nil =>
      simp at hx
      simp [hx, List.getLast]
    | cons b t2 =>
      rw [List.getLast_cons (by simp)]
      rcases List.mem_cons.mp hx with rfl | hx'
      · exact le_trans ((List.sorted_cons.mp hs).1 b (by simp))
          (ih hs.of_cons (by simp) b (by simp))
      · exact ih hs.of_cons (by simp) x hx'

theorem dates_updateDailyMerge (ex pl : DF) (cols : List String) :
    (updateDailyMerge ex pl cols).dates = dateUnion ex.dates pl.dates := by
  unfold updateDailyMerge DF.dates
  rw [List.map_map]
  exact List.map_id _

/-! ## Claims on the Merge Engine -/

/-- **C1**: incremental merge preserves existing data — for every column of
the target header and every date whose cell is present and non-empty in
the existing table, the cell after the update_daily merge equals its value
before the merge, whatever the freshly pulled window holds there. -/
theorem c1_incremental_merge_preserves (ex pl : DF) (cols : List String) (d : Nat)
    (c : String) (v : ℚ) (hc : c ∈ cols) (hv : ex.get d c = some v) :
    (updateDailyMerge ex pl cols).get d c = some v := by
  have hd : d ∈ ex.dates := mem_dates_of_get ex d c (by simp [hv])
  rw [get_updateDailyMerge ex pl cols d c (mem_dateUnion_iff.mpr (Or.inl hd)) hc, hv]
  rfl

/-- Witness for C1, the spec's own example: existing cell `5.0` merged with
a fetched empty cell for the same date and column stays `5.0`. -/
theorem c1_incremental_merge_preserves_witness :
    "SOFR" ∈ ["SOFR"] ∧
    (DF.mk [(20240101, [("SOFR", some (5 : ℚ))])]).get 20240101 "SOFR" = some 5 ∧
    (updateDailyMerge (DF.mk [(20240101, [("SOFR", some (5 : ℚ))])])
        (DF.mk [(20240101, [("SOFR", none)])]) ["SOFR"]).get 20240101 "SOFR" = some 5 :=
  ⟨by decide, by decide,
    c1_incremental_merge_preserves _ _ _ _ _ _ (by decide) (by decide)⟩

/-- **C4 (amended)**: gap-filling holds for the daily table's merge — a cell
empty in the existing table and valued in the fresh pull takes the pulled
value. (The monthly update appends only rows strictly after the watermark
and never fills cells at existing timestamps; see the counterexample.) -/
theorem c4_daily_merge_fills_gaps (ex pl : DF) (cols : List String) (d : Nat)
    (c : String) (v : ℚ) (hc : c ∈ cols) (hex : ex.get d c = none)
    (hpl : pl.get d c = some v) :
    (updateDailyMerge ex pl cols).get d c = some v := by
  have hd : d ∈ pl.dates := mem_dates_of_get pl d c (by simp [hpl])
  rw [get_updateDailyMerge ex pl cols d c (mem_dateUnion_iff.mpr (Or.inr hd)) hc, hex, hpl]
  rfl

/-- Witness for the amended C4 at a concrete gap. -/
theorem c4_daily_merge_fills_gaps_witness :
    (updateDailyMerge (DF.mk [(20240101, [("SOFR", none)])])
        (DF.mk [(20240101, [("SOFR", some (3 : ℚ))])]) ["SOFR"]).get 20240101 "SOFR" =
      some 3 :=
  c4_daily_merge_fills_gaps _ _ _ _ _ _ (by decide) (by decide) (by decide)

/-- **C4 (counterexample)**: in the monthly update, a cell empty at an
existing timestamp (2024-01-01) stays empty after the run even though the
freshly fetched window carries a value for it — rows at or below the
stored last date (2024-02-01) are filtered out before appending, and the
existing rows are never rewritten. This refutes the claim for "every
incremental table update". -/
theorem c4_monthly_no_gap_fill_counterexample :
    (DF.mk [(20240101, [("US_CPI_YoY", some (2 : ℚ))])]).get 20240101 "US_CPI_YoY" =
      some 2 ∧
    monthlyFinalize
        [(20240101, [("US_CPI_YoY", none)]), (20240201, [("US_CPI_YoY", some (3 : ℚ))])]
        (some ⟨2024, 2, 1⟩)
        (DF.mk [(20240101, [("US_CPI_YoY", some (2 : ℚ))])]) =
      [(20240101, [("US_CPI_YoY", none)]), (20240201, [("US_CPI_YoY", some (3 : ℚ))])] ∧
    (DF.mk (monthlyFinalize
        [(20240101, [("US_CPI_YoY", none)]), (20240201, [("US_CPI_YoY", some (3 : ℚ))])]
        (some ⟨2024, 2, 1⟩)
        (DF.mk [(20240101, [("US_CPI_YoY", some (2 : ℚ))])]))).get 20240101 "US_CPI_YoY" =
      none := by
  refine ⟨by decide, by decide, by decide⟩

/-- Watermark of a raw sheet row list: the date key of its last row (the
sheets keep rows sorted ascending, and `get_header_and_last_date` reads
`values[-1][0]`, updater.py 150-162). -/
def rowsWatermark (rows : List (Nat × List (String × Cell))) : Option Nat :=
  (rows.map Prod.fst).getLast?

/-- Moving one day forward strictly increases the `yyyymmdd` key of a
calendar date. -/
theorem nextDay_key_gt (d : Date) (hm : d.month ≤ 12) (hd : d.day ≤ 31) :
    d.key < (nextDay d).key := by
  unfold nextDay
  split_ifs <;> simp only [Date.key] <;> omega

/-- Appending rows whose dates all lie strictly after the current
watermark keeps the watermark, or moves it strictly forward exactly when
something was appended. -/
theorem append_watermark (existing app : List (Nat × List (String × Cell))) (k : Nat)
    (hwm : rowsWatermark existing = some k) (hgt : ∀ r ∈ app, k < r.1) :
    ∃ w', rowsWatermark (existing ++ app) = some w' ∧ k ≤ w' ∧
      (existing ++ app ≠ existing → k < w') := by
  cases app with
  | nil =>
    refine ⟨k, ?_, le_refl k, ?_⟩
    · rw [List.append_nil]
      exact hwm
    · intro hne
      exact absurd (List.append_nil existing) hne
  | cons a t =>
    obtain ⟨r, hr⟩ := Option.isSome_iff_exists.mp
      (List.getLast?_isSome.mpr (List.cons_ne_nil a t))
    have hlt : k < r.1 := hgt r (List.mem_of_getLast?_eq_some hr)
    refine ⟨r.1, ?_, le_of_lt hlt, fun _ => hlt⟩
    unfold rowsWatermark
    rw [List.map_append, List.getLast?_append, List.getLast?_map, hr]
    rfl

/-- **C8 (amended)**: watermark monotonicity, per update path. For the
daily merge table the watermark after the run is ≥ the watermark before
it, and it strictly increases whenever the fetched window holds a date
later than the previous watermark — but a fetched date that only fills a
gap below the watermark adds a new timestamp without moving the
watermark (see the counterexample). For the append path shared by the
weekly, monthly and quarterly tables, every appended row lies strictly
after the stored last date, so the watermark never decreases and
strictly increases exactly when any row was appended: there the original
claim holds verbatim. -/
theorem c8_watermark_monotone :
    (∀ (ex pl : DF) (cols : List String), ex.dates ≠ [] →
      ∃ w w', ex.watermark = some w ∧
        (updateDailyMerge ex pl cols).watermark = some w' ∧ w ≤ w' ∧
        ∀ d ∈ pl.dates, w < d → w < w') ∧
    (∀ (existing : List (Nat × List (String × Cell))) (ld : Date) (combined : DF),
      rowsWatermark existing = some ld.key → ld.month ≤ 12 → ld.day ≤ 31 →
      ∃ w', rowsWatermark (monthlyFinalize existing (some ld) combined) = some w' ∧
        ld.key ≤ w' ∧
        (monthlyFinalize existing (some ld) combined ≠ existing → ld.key < w')) := by
  constructor
  · intro ex pl cols hne
    have hw : ex.watermark = some (ex.dates.getLast hne) := List.getLast?_eq_getLast _ hne
    set w := ex.dates.getLast hne with hwdef
    have hwmem : w ∈ ex.dates := List.getLast_mem hne
    have hwu : w ∈ dateUnion ex.dates pl.dates := mem_dateUnion_iff.mpr (Or.inl hwmem)
    have hune : dateUnion ex.dates pl.dates ≠ [] := List.ne_nil_of_mem hwu
    have hsu : (dateUnion ex.dates pl.dates).Sorted (· ≤ ·) :=
      List.sorted_insertionSort _ _
    refine ⟨w, (dateUnion ex.dates pl.dates).getLast hune, hw, ?_, ?_, ?_⟩
    · rw [DF.watermark, dates_updateDailyMerge]
      exact List.getLast?_eq_getLast _ hune
    · exact le_getLast_of_sorted hsu hune w hwu
    · intro d hd hlt
      have : d ≤ (dateUnion ex.dates pl.dates).getLast hune :=
        le_getLast_of_sorted hsu hune d (mem_dateUnion_iff.mpr (Or.inr hd))
      exact lt_of_lt_of_le hlt this
  · intro existing ld combined hwm hm hd
    refine append_watermark existing _ ld.key hwm ?_
    intro r hr
    have hge : (nextDay ld).key ≤ r.1 := by simpa using (List.mem_filter.mp hr).2
    exact lt_of_lt_of_le (nextDay_key_gt ld hm hd) hge

/-- Witness for the amended C8, both paths at concrete inputs: a daily
fetch containing a later date moves the watermark strictly forward, and
the monthly append of a post-watermark row does too. -/
theorem c8_watermark_monotone_witness :
    (∃ w w', (DF.mk [(20240101, [("SOFR", some (1 : ℚ))])]).watermark = some w ∧
      (updateDailyMerge (DF.mk [(20240101, [("SOFR", some (1 : ℚ))])])
        (DF.mk [(20240105, [("SOFR", some (2 : ℚ))])]) ["SOFR"]).watermark = some w' ∧
      w ≤ w' ∧
      ∀ d ∈ (DF.mk [(20240105, [("SOFR", some (2 : ℚ))])]).dates, w < d → w < w') ∧
    (∃ w', rowsWatermark (monthlyFinalize [(20240201, [("US_CPI_YoY", some (3 : ℚ))])]
        (some ⟨2024, 2, 1⟩) (DF.mk [(20240301, [("US_CPI_YoY", some (4 : ℚ))])])) =
        some w' ∧
      (Date.mk 2024 2 1).key ≤ w' ∧
      (monthlyFinalize [(20240201, [("US_CPI_YoY", some (3 : ℚ))])]
          (some ⟨2024, 2, 1⟩) (DF.mk [(20240301, [("US_CPI_YoY", some (4 : ℚ))])]) ≠
        [(20240201, [("US_CPI_YoY", some (3 : ℚ))])] → (Date.mk 2024 2 1).key < w')) :=
  ⟨c8_watermark_monotone.1 _ _ ["SOFR"] (by decide),
    c8_watermark_monotone.2 _ ⟨2024, 2, 1⟩ _ (by decide) (by decide) (by decide)⟩

/-- **C8 (counterexample)**: the daily merge can add a new timestamp
(2024-01-05, absent before, filling a gap inside the 30-day lookback)
while the watermark stays 2024-01-10 — the run added a timestamp but the
watermark did not strictly increase, refuting the claim as stated. -/
theorem c8_watermark_counterexample :
    (DF.mk [(20240101, [("SOFR", some (1 : ℚ))]), (20240110, [("SOFR", some (2 : ℚ))])]).watermark
        = some 20240110 ∧
    20240105 ∉ (DF.mk [(20240101, [("SOFR", some (1 : ℚ))]),
        (20240110, [("SOFR", some (2 : ℚ))])]).dates ∧
    20240105 ∈ (updateDailyMerge
        (DF.mk [(20240101, [("SOFR", some (1 : ℚ))]), (20240110, [("SOFR", some (2 : ℚ))])])
        (DF.mk [(20240105, [("SOFR", some (3 : ℚ))])]) ["SOFR"]).dates ∧
    (updateDailyMerge
        (DF.mk [(20240101, [("SOFR", some (1 : ℚ))]), (20240110, [("SOFR", some (2 : ℚ))])])
        (DF.mk [(20240105, [("SOFR", some (3 : ℚ))])]) ["SOFR"]).watermark =
      some 20240110 := by
  refine ⟨by decide, by decide, by decide, by decide⟩

/-! ## Claim C5: Period Normalizer conventions -/

/-- **C5**: evaluation of the Period Normalizer at the claim's inputs. The
monthly half holds (`"202403"` maps to 2024-03-01), but the quarterly half
fails: `"2024-Q1"` has length 7 with a dash at index 4, so the `YYYY-MM`
branch intercepts it and `pd.Timestamp("2024-Q1-01")` raises, while the
compact `"2024Q1"` reaches only the generic fallback, which returns the
FIRST day of the quarter — neither shape ever reaches the quarter-end
branch, despite that branch's own `# quarterly: YYYY-Qn` comment. -/
theorem c5_period_normalizer_eval :
    tp_to_timestamp "202403" = .ts ⟨2024, 3, 1⟩ ∧
    tp_to_timestamp "2024-Q1" = .raised ∧
    tp_to_timestamp "2024Q1" = .ts ⟨2024, 1, 1⟩ ∧
    tp_to_timestamp "2024-Q1" ≠ .ts ⟨2024, 3, 31⟩ ∧
    tp_to_timestamp "2024Q1" ≠ .ts ⟨2024, 3, 31⟩ := by decide

/-! ## Claim C6: malformed-period isolation in the ECOS fetch -/

/-- Python `s.split(".")` specialised to the decimal point. -/
def splitOnDot : List Char → List (List Char)
  | [] => [[]]
  | '.' :: rest => [] :: splitOnDot rest
  | c :: rest =>
    match splitOnDot rest with
    | h :: t => (c :: h) :: t
    | [] => [[c]]

/-- Python `float(v)` on the nonnegative decimal literals ECOS emits;
`none` models a raised `ValueError`, which the loop's try block catches
(the row is then skipped). -/
def parseFloat (s : String) : Option ℚ :=
  match splitOnDot s.toList with
  | [a] => (digitsToNat a).map (fun n => (n : ℚ))
  | [a, b] =>
      match digitsToNat a, digitsToNat b with
      | some x, some y => some ((x : ℚ) + (y : ℚ) / ((10 : ℚ) ^ b.length))
      | _, _ => none
  | _ => none

deriving instance DecidableEq for Except

/-- One raw ECOS observation: the `TIME` label and the `DATA_VALUE` field
(`none` models a JSON null, which the loop skips). -/
structure EcosRow where
  time : String
  value : Option String
deriving DecidableEq, Repr

/-- The observation loop of `ecos_stat_search` (updater.py 380-393): rows
with a missing label or value are skipped; the label goes through
`_tp_to_timestamp` OUTSIDE any try block, so a label on which the parser
raises aborts the whole fetch (`Except.error`); a label parsed to `NaT`
is dropped by the `pd.isna` test; a value `float()` rejects is dropped by
its own try block. -/
def ecosCollect : List EcosRow → Except Unit (List (Nat × ℚ))
  | [] => .ok []
  | r :: rest =>
    if r.time = "" ∨ r.value = none then ecosCollect rest
    else
      match tp_to_timestamp r.time with
      | .raised => .error ()
      | .nat => ecosCollect rest
      | .ts d =>
          match (r.value.map parseFloat).join with
          | none => ecosCollect rest
          | some v => (ecosCollect rest).map (fun l => (d.key, v) :: l)

/-- `pd.Series({d: v for d, v in out}).sort_index()` (updater.py 398): per
timestamp the last collected value wins and the index is sorted. -/
def seriesOfPairs (l : List (Nat × ℚ)) : List (Nat × ℚ) :=
  (((l.map Prod.fst).dedup).insertionSort (· ≤ ·)).filterMap
    (fun k => ((l.filter (fun p => p.1 == k)).getLast?).map (fun p => (k, p.2)))

/-- `ecos_stat_search` from the response rows to the returned series
(updater.py 376-400). -/
def ecos_stat_search_series (rows : List EcosRow) : Except Unit (List (Nat × ℚ)) :=
  (ecosCollect rows).map seriesOfPairs

/-- **C6 (counterexample)**: one unparseable label (`"202413"`, whose digit
shape reaches `pd.Timestamp(2024, 13, 1)`, a raising call) loses the WHOLE
series — the same response without that row yields two good observations.
This refutes "only that single observation is dropped, never fatal to the
rest of the series". -/
theorem c6_counterexample :
    ecos_stat_search_series
        [⟨"202401", some "3"⟩, ⟨"202413", some "4"⟩, ⟨"202402", some "5"⟩] =
      .error () ∧
    ecos_stat_search_series [⟨"202401", some "3"⟩, ⟨"202402", some "5"⟩] =
      .ok [(20240101, (3 : ℚ)), (20240201, (5 : ℚ))] := by decide

/-- **C6 (amended)**: a label that the parser maps to `NaT` (rather than
raising) drops only its own observation: the fetched series equals the
series computed from the same response without that row. -/
theorem c6_nat_label_isolated (pre post : List EcosRow) (r : EcosRow)
    (h : tp_to_timestamp r.time = .nat) :
    ecos_stat_search_series (pre ++ r :: post) =
      ecos_stat_search_series (pre ++ post) := by
  have key : ecosCollect (pre ++ r :: post) = ecosCollect (pre ++ post) := by
    induction pre with
    | nil =>
      simp only [List.nil_append]
      by_cases hrv : r.time = "" ∨ r.value = none
      · simp [ecosCollect, hrv]
      · simp [ecosCollect, hrv, h]
    | cons a pre ih =>
      simp only [List.cons_append, ecosCollect, List.append_eq]
      rw [ih]
  unfold ecos_stat_search_series
  rw [key]

/-- Witness for the amended C6: an `"N/A"` label is dropped alone. -/
theorem c6_nat_label_isolated_witness :
    tp_to_timestamp "N/A" = .nat ∧
    ecos_stat_search_series [⟨"202401", some "3"⟩, ⟨"N/A", some "9"⟩] =
      ecos_stat_search_series [⟨"202401", some "3"⟩] :=
  ⟨by decide,
    c6_nat_label_isolated [⟨"202401", some "3"⟩] [] ⟨"N/A", some "9"⟩ (by decide)⟩

/-! ## Claim C2: the commit step of update_daily (updater.py 570-572) -/

/-- The sheet calls the daily commit issues. -/
inductive SheetOp where
  | clear
  | update (vals : List (List String))
deriving DecidableEq, Repr

/-- Effect of one sheet call on the persisted contents: `ws.clear()`
empties the tab, `ws.update(vals)` writes header and all rows in one
call. -/
def applyOp (s : List (List String)) : SheetOp → List (List String)
  | .clear => []
  | .update v => v

/-- Run a sequence of sheet calls against the persisted contents, a
transport failure injected at the call indexed by `failAt` (when inside
the sequence): the failing call has no effect, the exception propagates
(main has no handler), and the store keeps whatever the earlier calls
produced. Returns final contents and whether the run succeeded. -/
def runOps : List (List String) → List SheetOp → Option Nat → List (List String) × Bool
  | s, [], _ => (s, true)
  | s, _ :: _, some 0 => (s, false)
  | s, op :: rest, some (k + 1) => runOps (applyOp s op) rest (some k)
  | s, op :: rest, none => runOps (applyOp s op) rest none

/-- The commit of update_daily: `ws.clear()` followed by a single
`ws.update(values)` with `values = [headers] + rows` (updater.py
570-572). -/
def commitDaily (prior : List (List String)) (header : List String)
    (rows : List (List String)) (failAt : Option Nat) : List (List String) × Bool :=
  runOps prior [SheetOp.clear, SheetOp.update (header :: rows)] failAt

/-- **C2 (counterexample)**: a transport failure at the `ws.update` call —
after `ws.clear()` already succeeded — leaves the sheet EMPTY: the prior
persisted state is not preserved and the replacement was not written
either, so a consumer can observe neither-old-nor-new contents. -/
theorem c2_counterexample :
    commitDaily [["Date", "SOFR"], ["2024-01-01", "5"]] ["Date", "SOFR"]
        [["2024-01-02", "6"]] (some 1) = ([], false) ∧
    ([] : List (List String)) ≠ [["Date", "SOFR"], ["2024-01-01", "5"]] ∧
    ([] : List (List String)) ≠ [["Date", "SOFR"], ["2024-01-02", "6"]] := by decide

/-- **C2 (amended)**: the replacement itself is one update call writing
header and rows together, so a run with no failure persists the whole new
table, and a failure at the clear call leaves the prior state untouched;
but a failure at the update call, after the clear succeeded, leaves the
table empty — the prior state survives only failures that strike before
the clear. -/
theorem c2_commit_cases (prior : List (List String)) (header : List String)
    (rows : List (List String)) :
    commitDaily prior header rows none = (header :: rows, true) ∧
    commitDaily prior header rows (some 0) = (prior, false) ∧
    commitDaily prior header rows (some 1) = ([], false) ∧
    ∀ k, commitDaily prior header rows (some (k + 2)) = (header :: rows, true) :=
  ⟨rfl, rfl, rfl, fun _ => rfl⟩

/-! ## Claim C3: the hybrid splice (app.py 725-731) -/

/-- A single-column series with a date index, as `get_bok_data` returns it
(values come from `pd.to_numeric` and are never NaN). -/
abbrev Series := List (Nat × ℚ)

/-- Value of the series at date `d`. -/
def seriesGet (s : Series) (d : Nat) : Option ℚ :=
  (s.find? (fun p => p.1 == d)).map Prod.snd

/-- The date index of a series. -/
def seriesDates (s : Series) : List Nat := s.map Prod.fst

/-- `df_ktb2.combine_first(df_msb2)` (app.py 730): on the sorted union of
the two date indexes, the primary's value where it has one, otherwise the
fallback's. -/
def splice (primary fallback : Series) : Series :=
  (dateUnion (seriesDates primary) (seriesDates fallback)).filterMap
    (fun d => ((seriesGet primary d).orElse (fun _ => seriesGet fallback d)).map
      (fun v => (d, v)))

theorem seriesGet_eq_none_iff (s : Series) (d : Nat) :
    seriesGet s d = none ↔ d ∉ seriesDates s := by
  unfold seriesGet seriesDates
  constructor
  · intro h hm
    rcases List.mem_map.mp hm with ⟨p, hp, hpd⟩
    cases hf : s.find? (fun p => p.1 == d) with
    | none =>
      have hcontra := List.find?_eq_none.mp hf p hp
      rw [hpd] at hcontra
      simp at hcontra
    | some q => rw [hf] at h; simp at h
  · intro hm
    have : s.find? (fun p => p.1 == d) = none := by
      rw [List.find?_eq_none]
      intro p hp
      simp only [beq_iff_eq]
      intro hpd
      exact hm (List.mem_map.mpr ⟨p, hp, hpd⟩)
    rw [this]
    rfl

theorem map_pair_snd (o : Option ℚ) (d : Nat) :
    (o.map (fun v => (d, v))).map Prod.snd = o := by
  cases o <;> rfl

theorem find_filterMap_key (l : List Nat) (h : Nat → Option ℚ) (d : Nat) (hd : d ∈ l) :
    (l.filterMap (fun x => (h x).map (fun v => (x, v)))).find? (fun p => p.1 == d) =
      (h d).map (fun v => (d, v)) := by
  induction l with
  | nil => simp at hd
  | cons x xs ih =>
    by_cases hx : x = d
    · subst hx
      cases hval : h x with
      | none =>
        rw [List.filterMap_cons, hval]
        rw [List.find?_eq_none.mpr, Option.map_none']
        intro p hp
        rcases List.mem_filterMap.mp hp with ⟨z, _, hmap⟩
        cases hz : h z with
        | none => rw [hz] at hmap; simp at hmap
        | some w =>
          rw [hz] at hmap
          simp only [Option.map_some', Option.some.injEq] at hmap
          subst hmap
          simp only [beq_iff_eq]
          intro hzx
          rw [hzx] at hz
          rw [hz] at hval
          simp at hval
      | some v =>
        rw [List.filterMap_cons, hval]
        simp only [Option.map_some']
        rw [List.find?_cons_of_pos _ (by simp)]
    · have hd' : d ∈ xs := by
        rcases List.mem_cons.mp hd with h' | h'
        · exact absurd h'.symm hx
        · exact h'
      cases hval : h x with
      | none =>
        rw [List.filterMap_cons, hval]
        exact ih hd'
      | some w =>
        rw [List.filterMap_cons, hval]
        simp only [Option.map_some']
        rw [List.find?_cons_of_neg _ (by simpa using hx)]
        exact ih hd'

/-- **C3**: splice precedence — at every date the spliced series carries
the primary's value when the primary has one (in particular at dates
present in both inputs), otherwise the fallback's value when the fallback
has one, and no value at all otherwise: never an average of the two. -/
theorem c3_splice_precedence (primary fallback : Series) (d : Nat) :
    seriesGet (splice primary fallback) d =
      (seriesGet primary d).orElse (fun _ => seriesGet fallback d) := by
  by_cases hd : d ∈ dateUnion (seriesDates primary) (seriesDates fallback)
  · unfold splice seriesGet
    rw [find_filterMap_key _ _ _ hd]
    exact map_pair_snd _ _
  · have hp : seriesGet primary d = none :=
      (seriesGet_eq_none_iff _ _).mpr (fun hm => hd (mem_dateUnion_iff.mpr (Or.inl hm)))
    have hf2 : seriesGet fallback d = none :=
      (seriesGet_eq_none_iff _ _).mpr (fun hm => hd (mem_dateUnion_iff.mpr (Or.inr hm)))
    have hnone : List.find? (fun p => p.1 == d) (splice primary fallback) = none := by
      rw [List.find?_eq_none]
      intro q hq
      rcases List.mem_filterMap.mp hq with ⟨z, hz, hmap⟩
      cases hzv : (seriesGet primary z).orElse (fun _ => seriesGet fallback z) with
      | none => rw [hzv] at hmap; simp at hmap
      | some w =>
        rw [hzv] at hmap
        simp only [Option.map_some', Option.some.injEq] at hmap
        subst hmap
        simp only [beq_iff_eq]
        intro hzd
        exact hd (hzd ▸ hz)
    rw [hp, hf2]
    unfold seriesGet
    rw [hnone]
    rfl

/-- Concrete check of C3 at a date present in both inputs: the primary's
value wins, and it is not the average. -/
theorem c3_splice_example :
    seriesGet (splice [(20240102, (2 : ℚ))] [(20240102, (4 : ℚ)), (20240101, 7)]) 20240102 =
      some 2 ∧
    seriesGet (splice [(20240102, (2 : ℚ))] [(20240102, (4 : ℚ)), (20240101, 7)]) 20240101 =
      some 7 ∧
    seriesGet (splice [(20240102, (2 : ℚ))] [(20240102, (4 : ℚ)), (20240101, 7)]) 20240103 =
      none := by
  refine ⟨?_, ?_, ?_⟩ <;> rw [c3_splice_precedence] <;> decide

/-! ## Claim C7: table isolation in the orchestrator (updater.py 944-954) -/

/-- One per-table updater invocation: the tab it serves and whether it
raises an uncaught exception during this run. -/
abbrev TableStep := String × Bool

/-- Sequential execution of the per-table updaters exactly as `main` runs
them — one after the other with no try/except: an uncaught exception ends
the run and the remaining updaters are never invoked. Returns the tabs
whose updaters completed, and the tab whose updater raised, if any. -/
def runPipeline : List TableStep → List String × Option String
  | [] => ([], none)
  | (name, fails) :: rest =>
    if fails then ([], some name)
    else
      ((name :: (runPipeline rest).1), (runPipeline rest).2)

/-- The four tables `main` updates, in source order, each with a flag
saying whether its updater raises this run. -/
def mainTables (f1 f2 f3 f4 : Bool) : List TableStep :=
  [("data-daily", f1), ("data-weekly", f2), ("data-monthly", f3), ("data-quarterly", f4)]

/-- **C7 (counterexample)**: when only the daily updater raises, the other
three tables are not processed in that run — the monthly updater did not
fail, yet it never ran, refuting the claim as stated. -/
theorem c7_counterexample :
    runPipeline (mainTables true false false false) = ([], some "data-daily") ∧
    "data-monthly" ∉ (runPipeline (mainTables true false false false)).1 := by decide

/-- **C7 (amended)**: the tables processed in a run are exactly the prefix
of main's table list before the first updater that raises; the failing
table and every table after it are skipped, because main sequences the
four updaters with no per-table exception handling. -/
theorem c7_first_failure_stops_run (f1 f2 f3 f4 : Bool) :
    runPipeline (mainTables f1 f2 f3 f4) =
      (((mainTables f1 f2 f3 f4).takeWhile (fun p => !p.2)).map Prod.fst,
        (((mainTables f1 f2 f3 f4).dropWhile (fun p => !p.2)).head?).map Prod.fst) := by
  cases f1 <;> cases f2 <;> cases f3 <;> cases f4 <;> rfl

/-! ## Claim C9: the rate transformer (app.py 944-957) -/

/-- The claim's precondition on the level series: strictly increasing
(hence duplicate-free) timestamps. -/
def strictlyIncreasing : List Nat → Bool
  | [] => true
  | [_] => true
  | a :: b :: t => a < b && strictlyIncreasing (b :: t)

/-- `column.pct_change(n)` on a clean level column: entry `i` equals
`level[i] / level[i - n] - 1` when `i ≥ n`, and is absent otherwise. -/
def pctChange (s : List ℚ) (n : Nat) : List (Option ℚ) :=
  (List.range s.length).map (fun i =>
    if n ≤ i then
      match s[i - n]?, s[i]? with
      | some a, some b => some (b / a - 1)
      | _, _ => none
    else none)

/-- The YoY series of plot_macro_charts: `pct_change(p) * 100`, where `p`
is the number of periods per year (4 for quarterly GDP, 12 for monthly
CPI). -/
def yoySeries (s : List ℚ) (p : Nat) : List (Option ℚ) :=
  (pctChange s p).map (fun o => o.map (fun x => x * 100))

/-- **C9**: for a level series on strictly increasing, duplicate-free
timestamps, YoY at index `i` is `(level[i] / level[i - p] - 1) * 100`
whenever the series reaches back `p` periods (so a value first appears
once `p + 1` points, the one at `i` included, are available), and every
earlier index is absent from the output — absent, not zero. -/
theorem c9_yoy_formula (ts : List Nat) (s : List ℚ) (p i : Nat)
    (hlen : ts.length = s.length) (hmono : strictlyIncreasing ts = true)
    (hi : i < s.length) :
    (i < p → (yoySeries s p)[i]? = some none) ∧
    (∀ a b, p ≤ i → s[i - p]? = some a → s[i]? = some b →
      (yoySeries s p)[i]? = some (some ((b / a - 1) * 100))) := by
  constructor
  · intro hip
    unfold yoySeries pctChange
    rw [List.getElem?_map, List.getElem?_map, List.getElem?_range hi]
    simp [Nat.not_le.mpr hip]
  · intro a b hpi ha hb
    unfold yoySeries pctChange
    rw [List.getElem?_map, List.getElem?_map, List.getElem?_range hi]
    simp [hpi, ha, hb]

/-- The level series of the claim's example: 13 monthly points from 100
to 110. -/
def c9Levels : List ℚ :=
  [100, 101, 102, 102, 103, 104, 105, 106, 107, 108, 109, 109, 110]

/-- Month-start date keys for the 13 points. -/
def c9Dates : List Nat :=
  [20230101, 20230201, 20230301, 20230401, 20230501, 20230601, 20230701,
   20230801, 20230901, 20231001, 20231101, 20231201, 20240101]

/-- Witness for C9, the spec's example: the 13th month carries YoY `10`
and month 6 carries no value. -/
theorem c9_yoy_formula_witness :
    (yoySeries c9Levels 12)[12]? = some (some 10) ∧
    (yoySeries c9Levels 12)[5]? = some none := by
  have h2 := (c9_yoy_formula c9Dates c9Levels 12 12 rfl (by decide) (by decide)).2
    100 110 (by decide) rfl rfl
  have h1 := (c9_yoy_formula c9Dates c9Levels 12 5 rfl (by decide) (by decide)).1
    (by decide)
  refine ⟨?_, h1⟩
  rw [h2]
  norm_num

/-! ## Claim C10: mixed period-key conventions in the monthly table -/

/-- Month bucket of a date, encoded `100 * year + month`. -/
def monthKey (d : Date) : Nat := d.year * 100 + d.month

/-- `dfr_daily.resample("M").last()` (updater.py 744), restricted to the
months that carry data (bucket months with no observation contribute only
empty cells and play no part in the claim): for each month occurring in
the daily series, the month's last daily observation, keyed at the LAST
calendar day of that month. -/
def resampleMonthLast (s : List (Date × ℚ)) : List (Date × ℚ) :=
  ((s.map (fun p => monthKey p.1)).dedup).filterMap
    (fun mk =>
      ((s.filter (fun p => monthKey p.1 == mk)).getLast?).map
        (fun p => (monthEnd p.1.year p.1.month, p.2)))

/-- Value at date key `k` of a date-keyed series. -/
def dseriesGet (s : List (Date × ℚ)) (k : Nat) : Option ℚ :=
  (s.find? (fun p => p.1.key == k)).map Prod.snd

/-- Outer join of the two monthly source groups on their date keys
(`combined.join(tmp, how="outer")`, updater.py 727/748): per date key of
the union, the OECD-group cell (CPI / unemployment, keyed at month
starts by `pd.to_datetime` on `YYYY-MM` labels, updater.py 466-473) and
the ECB-group cell (EA/DE policy rate, keyed at month ends by the
resample). -/
def combineMonthly (cpi ea : List (Date × ℚ)) : List (Nat × (Option ℚ × Option ℚ)) :=
  (dateUnion (cpi.map (fun p => p.1.key)) (ea.map (fun p => p.1.key))).map
    (fun k => (k, (dseriesGet cpi k, dseriesGet ea k)))

theorem resampleMonthLast_shape {dfr : List (Date × ℚ)} {q : Date × ℚ}
    (hq : q ∈ resampleMonthLast dfr) :
    ∃ p ∈ dfr, q.1 = monthEnd p.1.year p.1.month := by
  rcases List.mem_filterMap.mp hq with ⟨mk, _, hmap⟩
  cases hlast : (dfr.filter (fun p => monthKey p.1 == mk)).getLast? with
  | none => rw [hlast] at hmap; simp at hmap
  | some p =>
    rw [hlast] at hmap
    simp only [Option.map_some', Option.some.injEq] at hmap
    refine ⟨p, List.mem_of_mem_filter (List.mem_of_getLast?_eq_some hlast), ?_⟩
    rw [← hmap]

/-- **C10**: the monthly table does not keep one period-key convention per
month — EA/DE policy-rate observations from the daily ECB series are
keyed to the last calendar day of each month, while OECD-derived CPI /
unemployment observations for the same month are keyed to the first day
of the month, so a month with data in both groups produces two distinct
rows, each leaving the other group's columns empty. -/
theorem c10_two_rows_per_month (y m : Nat) (c0 : ℚ) (dfr cpi : List (Date × ℚ))
    (hm12 : ∀ p ∈ dfr, 1 ≤ p.1.month ∧ p.1.month ≤ 12)
    (hmem : ∃ p ∈ dfr, p.1.year = y ∧ p.1.month = m)
    (hcpi1 : ∀ p ∈ cpi, p.1.day = 1)
    (hc : dseriesGet cpi (Date.key ⟨y, m, 1⟩) = some c0) :
    (Date.key ⟨y, m, 1⟩, (some c0, (none : Option ℚ))) ∈
        combineMonthly cpi (resampleMonthLast dfr) ∧
    (∃ w, (Date.key (monthEnd y m), ((none : Option ℚ), some w)) ∈
        combineMonthly cpi (resampleMonthLast dfr)) ∧
    Date.key ⟨y, m, 1⟩ ≠ Date.key (monthEnd y m) := by
  obtain ⟨p0, hp0, hy0, hm0⟩ := hmem
  have hmb : 1 ≤ m ∧ m ≤ 12 := by
    have h := hm12 p0 hp0
    omega
  have hD := daysInMonth_bounds y m
  -- shape of the resampled policy-rate series
  have hshape : ∀ q ∈ resampleMonthLast dfr,
      (28 ≤ q.1.day ∧ q.1.day ≤ 31) ∧ (1 ≤ q.1.month ∧ q.1.month ≤ 12) := by
    intro q hq
    rcases resampleMonthLast_shape hq with ⟨p, hp, hqe⟩
    rw [hqe]
    exact ⟨daysInMonth_bounds _ _, hm12 p hp⟩
  -- the policy-rate series has no month-start key
  have heaNone : dseriesGet (resampleMonthLast dfr) (Date.key ⟨y, m, 1⟩) = none := by
    unfold dseriesGet
    rw [List.find?_eq_none.mpr, Option.map_none']
    intro q hq
    have hqb := hshape q hq
    simp only [beq_iff_eq]
    intro hk
    unfold Date.key at hk
    simp only at hk
    omega
  -- the CPI series has no month-end key
  have hcpiNone : dseriesGet cpi (Date.key (monthEnd y m)) = none := by
    unfold dseriesGet
    rw [List.find?_eq_none.mpr, Option.map_none']
    intro q hq
    have hq1 := hcpi1 q hq
    simp only [beq_iff_eq]
    intro hk
    unfold Date.key monthEnd at hk
    simp only at hk
    omega
  -- the CPI key is present in the union
  have hstart : Date.key ⟨y, m, 1⟩ ∈ cpi.map (fun p => p.1.key) := by
    cases hf : cpi.find? (fun p => p.1.key == Date.key ⟨y, m, 1⟩) with
    | none => unfold dseriesGet at hc; rw [hf] at hc; simp at hc
    | some pr =>
      have hpr : pr ∈ cpi := List.mem_of_find?_eq_some hf
      have hprk : pr.1.key = Date.key ⟨y, m, 1⟩ := by simpa using List.find?_some hf
      exact List.mem_map.mpr ⟨pr, hpr, hprk⟩
  -- the month-end policy entry exists
  have hfilter : p0 ∈ dfr.filter (fun p => monthKey p.1 == y * 100 + m) := by
    rw [List.mem_filter]
    refine ⟨hp0, ?_⟩
    simp [monthKey, hy0, hm0]
  have hfne : dfr.filter (fun p => monthKey p.1 == y * 100 + m) ≠ [] :=
    List.ne_nil_of_mem hfilter
  obtain ⟨pl, hlast⟩ :=
    Option.isSome_iff_exists.mp (List.getLast?_isSome.mpr hfne)
  have hplf : pl ∈ dfr.filter (fun p => monthKey p.1 == y * 100 + m) :=
    List.mem_of_getLast?_eq_some hlast
  have hpl : pl ∈ dfr := List.mem_of_mem_filter hplf
  have hplk : monthKey pl.1 = y * 100 + m := by
    have := (List.mem_filter.mp hplf).2
    simpa using this
  have hplb := hm12 pl hpl
  have hply : pl.1.year = y ∧ pl.1.month = m := by
    unfold monthKey at hplk
    omega
  have hmk : y * 100 + m ∈ (dfr.map (fun p => monthKey p.1)).dedup := by
    rw [List.mem_dedup]
    exact List.mem_map.mpr ⟨p0, hp0, by simp [monthKey, hy0, hm0]⟩
  have hent : (monthEnd y m, pl.2) ∈ resampleMonthLast dfr := by
    refine List.mem_filterMap.mpr ⟨y * 100 + m, hmk, ?_⟩
    rw [hlast]
    simp only [Option.map_some', Option.some.injEq]
    rw [hply.1, hply.2]
  have hend : Date.key (monthEnd y m) ∈
      (resampleMonthLast dfr).map (fun p => p.1.key) :=
    List.mem_map.mpr ⟨(monthEnd y m, pl.2), hent, rfl⟩
  -- the policy-rate value at the month-end key exists
  have heaSome : (dseriesGet (resampleMonthLast dfr) (Date.key (monthEnd y m))).isSome := by
    unfold dseriesGet
    rw [Option.isSome_map']
    exact List.find?_isSome.mpr ⟨(monthEnd y m, pl.2), hent, by simp⟩
  obtain ⟨w, hw⟩ := Option.isSome_iff_exists.mp heaSome
  -- assemble the three conclusions
  refine ⟨?_, ⟨w, ?_⟩, ?_⟩
  · have hu : Date.key ⟨y, m, 1⟩ ∈
        dateUnion (cpi.map (fun p => p.1.key))
          ((resampleMonthLast dfr).map (fun p => p.1.key)) :=
      mem_dateUnion_iff.mpr (Or.inl hstart)
    have hmem' : (Date.key ⟨y, m, 1⟩,
        (dseriesGet cpi (Date.key ⟨y, m, 1⟩),
          dseriesGet (resampleMonthLast dfr) (Date.key ⟨y, m, 1⟩))) ∈
        combineMonthly cpi (resampleMonthLast dfr) :=
      List.mem_map.mpr ⟨Date.key ⟨y, m, 1⟩, hu, rfl⟩
    rw [hc, heaNone] at hmem'
    exact hmem'
  · have hu : Date.key (monthEnd y m) ∈
        dateUnion (cpi.map (fun p => p.1.key))
          ((resampleMonthLast dfr).map (fun p => p.1.key)) :=
      mem_dateUnion_iff.mpr (Or.inr hend)
    have hmem' : (Date.key (monthEnd y m),
        (dseriesGet cpi (Date.key (monthEnd y m)),
          dseriesGet (resampleMonthLast dfr) (Date.key (monthEnd y m)))) ∈
        combineMonthly cpi (resampleMonthLast dfr) :=
      List.mem_map.mpr ⟨Date.key (monthEnd y m), hu, rfl⟩
    rw [hcpiNone, hw] at hmem'
    exact hmem'
  · unfold Date.key monthEnd
    simp only
    omega

/-- Witness for C10: January 2024 with two daily ECB observations and one
OECD CPI observation yields a month-start row with only the CPI value and
a month-end row with only the policy value. -/
theorem c10_two_rows_per_month_witness :
    (Date.key ⟨2024, 1, 1⟩, (some (2 : ℚ), (none : Option ℚ))) ∈
        combineMonthly [(⟨2024, 1, 1⟩, (2 : ℚ))]
          (resampleMonthLast [(⟨2024, 1, 15⟩, (3 : ℚ)), (⟨2024, 1, 31⟩, (4 : ℚ))]) ∧
    (∃ w, (Date.key (monthEnd 2024 1), ((none : Option ℚ), some w)) ∈
        combineMonthly [(⟨2024, 1, 1⟩, (2 : ℚ))]
          (resampleMonthLast [(⟨2024, 1, 15⟩, (3 : ℚ)), (⟨2024, 1, 31⟩, (4 : ℚ))])) ∧
    Date.key ⟨2024, 1, 1⟩ ≠ Date.key (monthEnd 2024 1) :=
  c10_two_rows_per_month 2024 1 2 [(⟨2024, 1, 15⟩, 3), (⟨2024, 1, 31⟩, 4)]
    [(⟨2024, 1, 1⟩, 2)] (by decide) (by decide) (by decide) (by decide)

example : tp_to_timestamp "202403" = .ts ⟨2024, 3, 1⟩ := by decide
example : tp_to_timestamp "20240315" = .ts ⟨2024, 3, 15⟩ := by decide
example : tp_to_timestamp "2024-03" = .ts ⟨2024, 3, 1⟩ := by decide
example : tp_to_timestamp "2024-Q1" = .raised := by decide
example : tp_to_timestamp "2024Q1" = .ts ⟨2024, 1, 1⟩ := by decide
example : tp_to_timestamp "202413" = .raised := by decide
example : tp_to_timestamp "N/A" = .nat := by decide
example : tp_to_timestamp "2024-01-05" = .ts ⟨2024, 1, 5⟩ := by decide

end FIDash
